import Mathlib

/-!
# Verification of the jam-seismic core

Shallow embedding of the computational core of the jam-seismic repository:

* the grid spacing / tick generation utilities of `src/utils/gridSystem.js`,
  embedded over `ℚ` (the source computes with JavaScript numbers; all the
  quantities involved in the verified claims are exact decimal values, so the
  rational model is faithful on them);
* the isometric projection of `src/utils/gridSystem.js`, over `ℝ`;
* the formula library of the engineering constants module
  (`FORMULAS.naturalFrequency`, `FORMULAS.period`, `FORMULAS.dynamicAmplification`),
  over `ℝ` with an explicit model of the JavaScript number line
  (finite values, signed infinities, NaN);
* the simulation loop of
  `src/simulations/earthquake-simulation/earthquake-simulation.jsx`
  (parameter state, derived properties effect, animation tick, lifecycle
  controls), over the same JavaScript number model.
-/

/-! ## Grid system (`src/utils/gridSystem.js`), over `ℚ` -/

/-- Result record of `calculateGridSpacing`:
`{ spacing, min, max, divisions }`. -/
structure GridSpacingResult where
  spacing : ℚ
  min : ℚ
  max : ℚ
  divisions : ℚ
  deriving DecidableEq, Repr

/-- `calculateGridSpacing(min, max, targetDivisions)` from
`src/utils/gridSystem.js` (lines 103-131).  `Math.floor(Math.log10 rawSpacing)`
is the integer base-10 logarithm, modelled exactly by `Int.log 10`;
`Math.floor` and `Math.ceil` are `Int.floor` and `Int.ceil`. -/
def calculateGridSpacing (min max targetDivisions : ℚ) : GridSpacingResult :=
  let range := max - min
  let rawSpacing := range / targetDivisions
  let magnitude : ℚ := (10 : ℚ) ^ (Int.log 10 rawSpacing)
  let normalized := rawSpacing / magnitude
  let niceSpacing :=
    if normalized ≤ 1 then magnitude
    else if normalized ≤ 2 then 2 * magnitude
    else if normalized ≤ 5 then 5 * magnitude
    else 10 * magnitude
  let gridMin := (⌊min / niceSpacing⌋ : ℚ) * niceSpacing
  let gridMax := (⌈max / niceSpacing⌉ : ℚ) * niceSpacing
  { spacing := niceSpacing
    min := gridMin
    max := gridMax
    divisions := (gridMax - gridMin) / niceSpacing }

/-- The starting value of the `generateTicks` loop:
`Math.ceil(min / spacing) * spacing`. -/
def tickStart (min spacing : ℚ) : ℚ :=
  (⌈min / spacing⌉ : ℚ) * spacing

/-- Number of iterations of the loop
`for (value = start; value <= max; value += spacing)` when `spacing > 0`.
When `spacing ≤ 0` and the entry condition holds, the source loop never
terminates; the model returns an empty tick list in that case. -/
def tickCount (min max spacing : ℚ) : ℕ :=
  if 0 < spacing ∧ tickStart min spacing ≤ max then
    (⌊(max - tickStart min spacing) / spacing⌋).toNat + 1
  else 0

/-- `generateTicks(min, max, spacing)` from `src/utils/gridSystem.js`
(lines 140-150).  Iteration `i` of the loop pushes
`Math.round(value / spacing) * spacing` for `value = start + i * spacing`;
JavaScript `Math.round` (round half towards positive infinity) is
Mathlib `round` on `ℚ`. -/
def generateTicks (min max spacing : ℚ) : List ℚ :=
  (List.range (tickCount min max spacing)).map fun (i : ℕ) =>
    (round ((tickStart min spacing + (i : ℚ) * spacing) / spacing) : ℚ) * spacing

/-! ### Helper lemmas for the grid system -/

lemma intLog10_eq {r : ℚ} {n : ℤ} (h1 : (10:ℚ)^n ≤ r) (h2 : r < (10:ℚ)^(n+1)) :
    Int.log 10 r = n := by
  have hr : 0 < r := lt_of_lt_of_le (zpow_pos (by norm_num) n) h1
  have hb : 1 < 10 := by norm_num
  have hle : n ≤ Int.log 10 r := by
    rw [← Int.zpow_le_iff_le_log hb hr]
    exact_mod_cast h1
  have hlt : Int.log 10 r < n + 1 := by
    rw [← Int.lt_zpow_iff_log_lt hb hr]
    exact_mod_cast h2
  omega

lemma qnorm_one_le (r : ℚ) (hr : 0 < r) : 1 ≤ r / (10:ℚ)^(Int.log 10 r) := by
  rw [one_le_div (zpow_pos (by norm_num) _)]
  exact Int.zpow_log_le_self (by norm_num) hr

lemma qnorm_lt_ten (r : ℚ) (_hr : 0 < r) : r / (10:ℚ)^(Int.log 10 r) < 10 := by
  rw [div_lt_iff (zpow_pos (by norm_num) _)]
  calc r < (10:ℚ) ^ (Int.log 10 r + 1) := Int.lt_zpow_succ_log_self (by norm_num) r
    _ = 10 * (10:ℚ)^(Int.log 10 r) := by
        rw [zpow_add_one₀ (by norm_num : (10:ℚ) ≠ 0)]; ring

lemma calculateGridSpacing_spacing (mn mx td : ℚ) :
    (calculateGridSpacing mn mx td).spacing =
      if (mx - mn)/td / (10:ℚ)^(Int.log 10 ((mx - mn)/td)) ≤ 1 then
        (10:ℚ)^(Int.log 10 ((mx - mn)/td))
      else if (mx - mn)/td / (10:ℚ)^(Int.log 10 ((mx - mn)/td)) ≤ 2 then
        2 * (10:ℚ)^(Int.log 10 ((mx - mn)/td))
      else if (mx - mn)/td / (10:ℚ)^(Int.log 10 ((mx - mn)/td)) ≤ 5 then
        5 * (10:ℚ)^(Int.log 10 ((mx - mn)/td))
      else 10 * (10:ℚ)^(Int.log 10 ((mx - mn)/td)) := rfl

lemma calculateGridSpacing_min (mn mx td : ℚ) :
    (calculateGridSpacing mn mx td).min =
      (⌊mn / (calculateGridSpacing mn mx td).spacing⌋ : ℚ) *
        (calculateGridSpacing mn mx td).spacing := rfl

lemma calculateGridSpacing_max (mn mx td : ℚ) :
    (calculateGridSpacing mn mx td).max =
      (⌈mx / (calculateGridSpacing mn mx td).spacing⌉ : ℚ) *
        (calculateGridSpacing mn mx td).spacing := rfl

lemma calculateGridSpacing_divisions (mn mx td : ℚ) :
    (calculateGridSpacing mn mx td).divisions =
      ((calculateGridSpacing mn mx td).max - (calculateGridSpacing mn mx td).min) /
        (calculateGridSpacing mn mx td).spacing := rfl

lemma calculateGridSpacing_spacing_pos (mn mx td : ℚ) :
    0 < (calculateGridSpacing mn mx td).spacing := by
  rw [calculateGridSpacing_spacing]
  have hp : (0:ℚ) < (10:ℚ)^(Int.log 10 ((mx - mn)/td)) := zpow_pos (by norm_num) _
  split_ifs <;> linarith

lemma floor_mul_le (x s : ℚ) (hs : 0 < s) : (⌊x / s⌋ : ℚ) * s ≤ x := by
  calc (⌊x / s⌋ : ℚ) * s ≤ (x / s) * s :=
        mul_le_mul_of_nonneg_right (Int.floor_le _) hs.le
    _ = x := div_mul_cancel₀ x hs.ne'

lemma le_ceil_mul (x s : ℚ) (hs : 0 < s) : x ≤ (⌈x / s⌉ : ℚ) * s := by
  calc x = (x / s) * s := (div_mul_cancel₀ x hs.ne').symm
    _ ≤ (⌈x / s⌉ : ℚ) * s :=
        mul_le_mul_of_nonneg_right (Int.le_ceil _) hs.le

lemma generateTicks_eq (mn mx s : ℚ) (hs : 0 < s) :
    generateTicks mn mx s =
      (List.range (tickCount mn mx s)).map
        fun (i : ℕ) => ((⌈mn / s⌉ + (i:ℤ) : ℤ) : ℚ) * s := by
  have hs' : s ≠ 0 := hs.ne'
  have hfun : (fun i : ℕ =>
        (round ((tickStart mn s + (i:ℚ) * s) / s) : ℚ) * s) =
      fun i : ℕ => ((⌈mn / s⌉ + (i:ℤ) : ℤ) : ℚ) * s := by
    funext i
    have hdiv : (tickStart mn s + (i:ℚ) * s) / s = ((⌈mn / s⌉ + (i:ℤ) : ℤ) : ℚ) := by
      rw [tickStart]
      field_simp
      push_cast
      ring
    rw [hdiv, round_intCast]
  unfold generateTicks
  rw [hfun]

/-! ### Claim theorems for the grid system -/

/-- **C5.** For every `min < max` and `targetDivisions > 0`, the spacing returned by
`calculateGridSpacing` is `c * 10^n` with `c ∈ {1,2,5,10}` and integer `n`, where `c`
is the smallest element of `{1,2,5,10}` at least as large as the raw mantissa
`rawSpacing / 10^⌊log10 rawSpacing⌋`; in particular
`calculateGridSpacing(0, 97, 10)` returns spacing 10, gridMin 0, gridMax 100,
divisions 10. -/
theorem gridSpacing_snaps_to_nice_numbers (mn mx td : ℚ) (h : mn < mx) (htd : 0 < td) :
    (∃ (c : ℚ) (n : ℤ), (c = 1 ∨ c = 2 ∨ c = 5 ∨ c = 10) ∧
      (calculateGridSpacing mn mx td).spacing = c * (10:ℚ)^n ∧
      (mx - mn) / td / (10:ℚ)^n ≤ c ∧
      (∀ e : ℚ, (e = 1 ∨ e = 2 ∨ e = 5 ∨ e = 10) → (mx - mn) / td / (10:ℚ)^n ≤ e → c ≤ e)) ∧
    calculateGridSpacing 0 97 10 = { spacing := 10, min := 0, max := 100, divisions := 10 } := by
  constructor
  · have hr : 0 < (mx - mn)/td := div_pos (by linarith) htd
    have h1 := qnorm_one_le _ hr
    have h10 := qnorm_lt_ten _ hr
    rw [calculateGridSpacing_spacing]
    by_cases hc1 : (mx - mn)/td / (10:ℚ)^(Int.log 10 ((mx - mn)/td)) ≤ 1
    · refine ⟨1, Int.log 10 ((mx - mn)/td), Or.inl rfl, ?_, hc1, ?_⟩
      · rw [if_pos hc1]; ring
      · rintro e (rfl|rfl|rfl|rfl) _ <;> norm_num
    · by_cases hc2 : (mx - mn)/td / (10:ℚ)^(Int.log 10 ((mx - mn)/td)) ≤ 2
      · refine ⟨2, Int.log 10 ((mx - mn)/td), Or.inr (Or.inl rfl), ?_, hc2, ?_⟩
        · rw [if_neg hc1, if_pos hc2]
        · rintro e (rfl|rfl|rfl|rfl) he
          · exact absurd he hc1
          · norm_num
          · norm_num
          · norm_num
      · by_cases hc5 : (mx - mn)/td / (10:ℚ)^(Int.log 10 ((mx - mn)/td)) ≤ 5
        · refine ⟨5, Int.log 10 ((mx - mn)/td), Or.inr (Or.inr (Or.inl rfl)), ?_, hc5, ?_⟩
          · rw [if_neg hc1, if_neg hc2, if_pos hc5]
          · rintro e (rfl|rfl|rfl|rfl) he
            · exact absurd he hc1
            · exact absurd he hc2
            · norm_num
            · norm_num
        · refine ⟨10, Int.log 10 ((mx - mn)/td), Or.inr (Or.inr (Or.inr rfl)), ?_, h10.le, ?_⟩
          · rw [if_neg hc1, if_neg hc2, if_neg hc5]
          · rintro e (rfl|rfl|rfl|rfl) he
            · exact absurd he hc1
            · exact absurd he hc2
            · exact absurd he hc5
            · norm_num
  · have hlog : Int.log 10 (((97:ℚ) - 0)/10) = 0 := by
      apply intLog10_eq <;> norm_num
    have hcl : (⌈(97:ℚ)/10⌉ : ℤ) = 10 := by
      rw [Int.ceil_eq_iff]
      norm_num
    simp only [calculateGridSpacing, hlog]
    norm_num [hcl]

/-- Witness for C5 at the concrete input `(0, 97, 10)`. -/
theorem gridSpacing_snaps_to_nice_numbers_witness :
    calculateGridSpacing 0 97 10 = { spacing := 10, min := 0, max := 100, divisions := 10 } :=
  (gridSpacing_snaps_to_nice_numbers 0 97 10 (by norm_num) (by norm_num)).2

/-- **C6.** For every `min < max` and `targetDivisions > 0`, `calculateGridSpacing`
returns `gridMin ≤ min` and `gridMax ≥ max` that are integer multiples of the
returned spacing, the spacing evenly divides `gridMax - gridMin`, and the returned
`divisions` value equals the integer `(gridMax - gridMin)/spacing`. -/
theorem gridSpacing_expands_and_divides (mn mx td : ℚ) (_h : mn < mx) (_htd : 0 < td) :
    (calculateGridSpacing mn mx td).min ≤ mn ∧
    mx ≤ (calculateGridSpacing mn mx td).max ∧
    (∃ a : ℤ, (calculateGridSpacing mn mx td).min =
      (a:ℚ) * (calculateGridSpacing mn mx td).spacing) ∧
    (∃ b : ℤ, (calculateGridSpacing mn mx td).max =
      (b:ℚ) * (calculateGridSpacing mn mx td).spacing) ∧
    (∃ d : ℤ, (calculateGridSpacing mn mx td).max - (calculateGridSpacing mn mx td).min =
        (d:ℚ) * (calculateGridSpacing mn mx td).spacing ∧
      (calculateGridSpacing mn mx td).divisions = (d:ℚ)) := by
  have hs := calculateGridSpacing_spacing_pos mn mx td
  refine ⟨?_, ?_, ?_, ?_, ?_⟩
  · rw [calculateGridSpacing_min]
    exact floor_mul_le mn _ hs
  · rw [calculateGridSpacing_max]
    exact le_ceil_mul mx _ hs
  · exact ⟨⌊mn / (calculateGridSpacing mn mx td).spacing⌋, calculateGridSpacing_min mn mx td⟩
  · exact ⟨⌈mx / (calculateGridSpacing mn mx td).spacing⌉, calculateGridSpacing_max mn mx td⟩
  · refine ⟨⌈mx / (calculateGridSpacing mn mx td).spacing⌉ -
      ⌊mn / (calculateGridSpacing mn mx td).spacing⌋, ?_, ?_⟩
    · rw [calculateGridSpacing_min, calculateGridSpacing_max]
      push_cast
      ring
    · rw [calculateGridSpacing_divisions, calculateGridSpacing_min, calculateGridSpacing_max,
        div_eq_iff hs.ne']
      push_cast
      ring

/-- Witness for C6 at the concrete input `(0, 97, 10)`. -/
theorem gridSpacing_expands_and_divides_witness :
    (calculateGridSpacing 0 97 10).min ≤ 0 ∧
    97 ≤ (calculateGridSpacing 0 97 10).max ∧
    (∃ a : ℤ, (calculateGridSpacing 0 97 10).min =
      (a:ℚ) * (calculateGridSpacing 0 97 10).spacing) ∧
    (∃ b : ℤ, (calculateGridSpacing 0 97 10).max =
      (b:ℚ) * (calculateGridSpacing 0 97 10).spacing) ∧
    (∃ d : ℤ, (calculateGridSpacing 0 97 10).max - (calculateGridSpacing 0 97 10).min =
        (d:ℚ) * (calculateGridSpacing 0 97 10).spacing ∧
      (calculateGridSpacing 0 97 10).divisions = (d:ℚ)) :=
  gridSpacing_expands_and_divides 0 97 10 (by norm_num) (by norm_num)

/-- **C7.** For every `min ≤ max` and `spacing > 0`, `generateTicks` returns a strictly
increasing sequence whose members are exactly the integer multiples of `spacing`
inside `[min, max]` (so it starts at the smallest multiple of `spacing ≥ min`, steps
by `spacing`, and every emitted value is an exact multiple of `spacing`); in
particular `generateTicks(0, 100, 10) = [0,10,...,100]` with exactly 11 values. -/
theorem generateTicks_multiples_in_range (mn mx s : ℚ) (_hmn : mn ≤ mx) (hs : 0 < s) :
    List.Pairwise (· < ·) (generateTicks mn mx s) ∧
    (∀ v : ℚ, v ∈ generateTicks mn mx s ↔
      ((∃ k : ℤ, v = (k:ℚ) * s) ∧ mn ≤ v ∧ v ≤ mx)) ∧
    generateTicks 0 100 10 = [0, 10, 20, 30, 40, 50, 60, 70, 80, 90, 100] := by
  refine ⟨?_, ?_, ?_⟩
  · rw [generateTicks_eq mn mx s hs, List.pairwise_map]
    refine (List.pairwise_lt_range _).imp ?_
    intro a b hab
    refine mul_lt_mul_of_pos_right ?_ hs
    have : (a:ℤ) < (b:ℤ) := by exact_mod_cast hab
    exact_mod_cast add_lt_add_left this ⌈mn / s⌉
  · intro v
    rw [generateTicks_eq mn mx s hs]
    constructor
    · intro hv
      rcases List.mem_map.mp hv with ⟨i, hi, rfl⟩
      rw [List.mem_range] at hi
      refine ⟨⟨⌈mn / s⌉ + i, rfl⟩, ?_, ?_⟩
      · calc mn ≤ (⌈mn / s⌉ : ℚ) * s := le_ceil_mul mn s hs
          _ ≤ ((⌈mn / s⌉ + (i:ℤ) : ℤ) : ℚ) * s := by
            refine mul_le_mul_of_nonneg_right ?_ hs.le
            push_cast
            linarith [Nat.cast_nonneg (α := ℚ) i]
      · by_cases hcond : 0 < s ∧ tickStart mn s ≤ mx
        · rw [tickCount, if_pos hcond] at hi
          have hF0 : 0 ≤ ⌊(mx - tickStart mn s) / s⌋ :=
            Int.floor_nonneg.mpr (div_nonneg (sub_nonneg.mpr hcond.2) hs.le)
          have hiF : (i:ℤ) ≤ ⌊(mx - tickStart mn s) / s⌋ := by omega
          have hiq : (i:ℚ) ≤ (mx - tickStart mn s) / s := by
            calc (i:ℚ) ≤ (⌊(mx - tickStart mn s) / s⌋ : ℚ) := by exact_mod_cast hiF
              _ ≤ (mx - tickStart mn s) / s := Int.floor_le _
          have his : (i:ℚ) * s ≤ mx - tickStart mn s := (le_div_iff hs).mp hiq
          have : ((⌈mn / s⌉ + (i:ℤ) : ℤ) : ℚ) * s = tickStart mn s + (i:ℚ) * s := by
            rw [tickStart]
            push_cast
            ring
          rw [this]
          linarith
        · rw [tickCount, if_neg hcond] at hi
          exact absurd hi (Nat.not_lt_zero i)
    · rintro ⟨⟨k, rfl⟩, hv1, hv2⟩
      have hk1 : ⌈mn / s⌉ ≤ k := Int.ceil_le.mpr ((div_le_iff hs).mpr (by linarith))
      have hstart_le : tickStart mn s ≤ (k:ℚ) * s := by
        rw [tickStart]
        exact mul_le_mul_of_nonneg_right (by exact_mod_cast hk1) hs.le
      have hcond : 0 < s ∧ tickStart mn s ≤ mx := ⟨hs, le_trans hstart_le hv2⟩
      have hF : ((k - ⌈mn / s⌉ : ℤ) : ℚ) ≤ (mx - tickStart mn s) / s := by
        rw [le_div_iff hs, tickStart]
        push_cast
        nlinarith [hv2, hcond.2]
      have hkF : k - ⌈mn / s⌉ ≤ ⌊(mx - tickStart mn s) / s⌋ := Int.le_floor.mpr hF
      have h0 : 0 ≤ k - ⌈mn / s⌉ := sub_nonneg.mpr hk1
      refine List.mem_map.mpr ⟨(k - ⌈mn / s⌉).toNat, List.mem_range.mpr ?_, ?_⟩
      · rw [tickCount, if_pos hcond]
        omega
      · have hcast : (((k - ⌈mn / s⌉).toNat : ℤ)) = k - ⌈mn / s⌉ := Int.toNat_of_nonneg h0
        rw [hcast]
        push_cast
        ring
  · have hs10 : (0:ℚ) < 10 := by norm_num
    rw [generateTicks_eq 0 100 10 hs10]
    have hstart : (⌈(0:ℚ)/10⌉ : ℤ) = 0 := by norm_num
    have hts : tickStart 0 10 = 0 := by
      rw [tickStart, hstart]
      norm_num
    have hfl : (⌊((100:ℚ) - 0)/10⌋ : ℤ) = 10 := by
      rw [Int.floor_eq_iff]
      norm_num
    have hcount : tickCount 0 100 10 = 11 := by
      rw [tickCount, if_pos ⟨hs10, by rw [hts]; norm_num⟩, hts]
      norm_num [hfl]
      rfl
    rw [hcount, hstart]
    simp [List.range_succ]
    norm_num

/-- Witness for C7 at the concrete input `(0, 100, 10)`. -/
theorem generateTicks_multiples_in_range_witness :
    generateTicks 0 100 10 = [0, 10, 20, 30, 40, 50, 60, 70, 80, 90, 100] :=
  (generateTicks_multiples_in_range 0 100 10 (by norm_num) (by norm_num)).2.2

/-! ## A model of the JavaScript number line

The simulation and formula code computes with JavaScript (IEEE 754 double)
numbers.  The model below represents a JavaScript number as either a finite
real, a signed infinity, or NaN, and the arithmetic operations follow the
IEEE special-value rules.  Finite arithmetic is modelled exactly over `ℝ`
(rounding is abstracted away, the standard idealization for this kind of
numeric code, and exact on every value the claims mention). -/

inductive JSVal where
  | fin : ℝ → JSVal
  | posInf : JSVal
  | negInf : JSVal
  | nan : JSVal

namespace JSVal

noncomputable section

/-- JavaScript addition. -/
def jadd : JSVal → JSVal → JSVal
  | nan, _ => nan
  | _, nan => nan
  | fin x, fin y => fin (x + y)
  | fin _, posInf => posInf
  | fin _, negInf => negInf
  | posInf, fin _ => posInf
  | negInf, fin _ => negInf
  | posInf, posInf => posInf
  | negInf, negInf => negInf
  | posInf, negInf => nan
  | negInf, posInf => nan

/-- JavaScript subtraction. -/
def jsub : JSVal → JSVal → JSVal
  | nan, _ => nan
  | _, nan => nan
  | fin x, fin y => fin (x - y)
  | fin _, posInf => negInf
  | fin _, negInf => posInf
  | posInf, fin _ => posInf
  | negInf, fin _ => negInf
  | posInf, posInf => nan
  | negInf, negInf => nan
  | posInf, negInf => posInf
  | negInf, posInf => negInf

/-- JavaScript multiplication. -/
def jmul : JSVal → JSVal → JSVal
  | nan, _ => nan
  | _, nan => nan
  | fin x, fin y => fin (x * y)
  | fin x, posInf => if 0 < x then posInf else if x < 0 then negInf else nan
  | fin x, negInf => if 0 < x then negInf else if x < 0 then posInf else nan
  | posInf, fin y => if 0 < y then posInf else if y < 0 then negInf else nan
  | negInf, fin y => if 0 < y then negInf else if y < 0 then posInf else nan
  | posInf, posInf => posInf
  | posInf, negInf => negInf
  | negInf, posInf => negInf
  | negInf, negInf => posInf

/-- JavaScript division (the model carries no signed zero: division by the
zero produced by the embedded code behaves as division by `+0`). -/
def jdiv : JSVal → JSVal → JSVal
  | nan, _ => nan
  | _, nan => nan
  | fin x, fin y =>
      if y = 0 then (if 0 < x then posInf else if x < 0 then negInf else nan)
      else fin (x / y)
  | fin _, posInf => fin 0
  | fin _, negInf => fin 0
  | posInf, fin y => if 0 ≤ y then posInf else negInf
  | negInf, fin y => if 0 ≤ y then negInf else posInf
  | posInf, posInf => nan
  | posInf, negInf => nan
  | negInf, posInf => nan
  | negInf, negInf => nan

/-- JavaScript `Math.sqrt`. -/
def jsqrt : JSVal → JSVal
  | nan => nan
  | fin x => if x < 0 then nan else fin (Real.sqrt x)
  | posInf => posInf
  | negInf => nan

/-- JavaScript `Math.sin` (NaN on every non-finite argument). -/
def jsin : JSVal → JSVal
  | fin x => fin (Real.sin x)
  | _ => nan

/-- `Math.pow(x, 2)`, which is exactly `x * x`. -/
def jpow2 (v : JSVal) : JSVal := jmul v v

end

/-- The two-argument arctangent on finite reals, with the JavaScript
quadrant convention (`Math.atan2(0, 0) = 0`). -/
noncomputable def atan2R (y x : ℝ) : ℝ :=
  if 0 < x then Real.arctan (y / x)
  else if x < 0 then
    (if 0 ≤ y then Real.arctan (y / x) + Real.pi else Real.arctan (y / x) - Real.pi)
  else
    (if 0 < y then Real.pi / 2 else if y < 0 then -(Real.pi / 2) else 0)

/-- JavaScript `Math.atan2`. -/
noncomputable def jatan2 : JSVal → JSVal → JSVal
  | nan, _ => nan
  | _, nan => nan
  | fin y, fin x => fin (atan2R y x)
  | posInf, fin _ => fin (Real.pi / 2)
  | negInf, fin _ => fin (-(Real.pi / 2))
  | fin _, posInf => fin 0
  | fin y, negInf => if y < 0 then fin (-Real.pi) else fin Real.pi
  | posInf, posInf => fin (Real.pi / 4)
  | posInf, negInf => fin (3 * Real.pi / 4)
  | negInf, posInf => fin (-(Real.pi / 4))
  | negInf, negInf => fin (-(3 * Real.pi / 4))

/-- A JavaScript value is finite when it is a real number (not an infinity,
not NaN). -/
def jfinite (v : JSVal) : Prop := ∃ x : ℝ, v = fin x

end JSVal

/-! ### Reduction lemmas for the JavaScript number model -/

namespace JSVal

@[simp] lemma jadd_fin (x y : ℝ) : jadd (fin x) (fin y) = fin (x + y) := rfl

@[simp] lemma jsub_fin (x y : ℝ) : jsub (fin x) (fin y) = fin (x - y) := rfl

@[simp] lemma jmul_fin (x y : ℝ) : jmul (fin x) (fin y) = fin (x * y) := rfl

lemma jdiv_fin_of_ne (x : ℝ) {y : ℝ} (h : y ≠ 0) :
    jdiv (fin x) (fin y) = fin (x / y) := by
  simp [jdiv, h]

lemma jdiv_fin_zero_of_pos {x : ℝ} (h : 0 < x) :
    jdiv (fin x) (fin 0) = posInf := by
  simp [jdiv, h]

lemma jsqrt_fin_of_nonneg {x : ℝ} (h : 0 ≤ x) :
    jsqrt (fin x) = fin (Real.sqrt x) := by
  simp [jsqrt, not_lt.mpr h]

lemma jsqrt_fin_of_neg {x : ℝ} (h : x < 0) : jsqrt (fin x) = nan := by
  simp [jsqrt, h]

@[simp] lemma jsin_fin (x : ℝ) : jsin (fin x) = fin (Real.sin x) := rfl

@[simp] lemma jatan2_fin (y x : ℝ) : jatan2 (fin y) (fin x) = fin (atan2R y x) := rfl

@[simp] lemma jadd_nan_left (v : JSVal) : jadd nan v = nan := by cases v <;> rfl

@[simp] lemma jadd_nan_right (v : JSVal) : jadd v nan = nan := by cases v <;> rfl

@[simp] lemma jsub_nan_left (v : JSVal) : jsub nan v = nan := by cases v <;> rfl

@[simp] lemma jsub_nan_right (v : JSVal) : jsub v nan = nan := by cases v <;> rfl

@[simp] lemma jmul_nan_left (v : JSVal) : jmul nan v = nan := by cases v <;> rfl

@[simp] lemma jmul_nan_right (v : JSVal) : jmul v nan = nan := by cases v <;> rfl

@[simp] lemma jdiv_nan_left (v : JSVal) : jdiv nan v = nan := by cases v <;> rfl

@[simp] lemma jdiv_nan_right (v : JSVal) : jdiv v nan = nan := by cases v <;> rfl

@[simp] lemma jsqrt_nan : jsqrt nan = nan := rfl

@[simp] lemma jsin_nan : jsin nan = nan := rfl

@[simp] lemma jatan2_nan_left (v : JSVal) : jatan2 nan v = nan := by cases v <;> rfl

@[simp] lemma jatan2_nan_right (v : JSVal) : jatan2 v nan = nan := by cases v <;> rfl

@[simp] lemma jpow2_nan : jpow2 nan = nan := rfl

lemma atan2R_zero_zero : atan2R 0 0 = 0 := by
  simp [atan2R]

end JSVal

/-! ## Formula library (engineering constants module, `FORMULAS`) -/

namespace FORMULAS

/-- `FORMULAS.naturalFrequency(stiffness, mass) = Math.sqrt(stiffness / mass) / (2 * Math.PI)`.
Modelled over `ℝ`; claim C8 only evaluates it on positive mass and stiffness,
where the JavaScript computation stays finite and agrees with the real one. -/
noncomputable def naturalFrequency (stiffness mass : ℝ) : ℝ :=
  Real.sqrt (stiffness / mass) / (2 * Real.pi)

/-- `FORMULAS.period(naturalFreq) = 1 / naturalFreq`. -/
noncomputable def period (naturalFreq : ℝ) : ℝ := 1 / naturalFreq

/-- `FORMULAS.dynamicAmplification(frequencyRatio, dampingRatio)`:
`1 / Math.sqrt(Math.pow(1 - r*r, 2) + Math.pow(2*z*r, 2))`, computed with the
JavaScript special-value semantics so the division by a zero denominator is
observable (it yields `Infinity`, not an exception). -/
noncomputable def dynamicAmplification (r z : ℝ) : JSVal :=
  let denominator := JSVal.jsqrt
    (JSVal.jadd
      (JSVal.jpow2 (JSVal.jsub (JSVal.fin 1) (JSVal.jmul (JSVal.fin r) (JSVal.fin r))))
      (JSVal.jpow2 (JSVal.jmul (JSVal.jmul (JSVal.fin 2) (JSVal.fin z)) (JSVal.fin r))))
  JSVal.jdiv (JSVal.fin 1) denominator

end FORMULAS

/-! ## Isometric projection (`src/utils/gridSystem.js`, lines 209-249) -/

/-- Projection configuration record (`ISOMETRIC_CONFIG` shape). -/
structure IsoConfig where
  angleX : ℝ
  angleY : ℝ
  angleZ : ℝ
  scaleX : ℝ
  scaleY : ℝ
  scaleZ : ℝ
  depthScale : ℝ

/-- The `ISOMETRIC_CONFIG` constant: 30 degree axis angles and the literal
scale factors `0.866` used by the source. -/
noncomputable def ISOMETRIC_CONFIG : IsoConfig :=
  { angleX := Real.pi / 6
    angleY := -(Real.pi / 6)
    angleZ := Real.pi / 2
    scaleX := 0.866
    scaleY := 0.866
    scaleZ := 1.0
    depthScale := 0.5 }

/-- `project3DToIsometric(x, y, z, config)` from `src/utils/gridSystem.js`:
`isoX = (x*cos(angleX) - y*cos(angleY)) * scaleX`,
`isoY = (x*sin(angleX) + y*sin(angleY) - z*scaleZ) * scaleY`. -/
noncomputable def project3DToIsometric (x y z : ℝ) (config : IsoConfig) : ℝ × ℝ :=
  ((x * Real.cos config.angleX - y * Real.cos config.angleY) * config.scaleX,
   (x * Real.sin config.angleX + y * Real.sin config.angleY - z * config.scaleZ) * config.scaleY)

/-! ## Simulation loop
(`src/simulations/earthquake-simulation/earthquake-simulation.jsx`) -/

noncomputable section

/-- The `parameters` state object of the component (lines 11-19).  The five
user-editable fields and the two derived fields are JavaScript numbers. -/
structure SimParams where
  mass : JSVal
  stiffness : JSVal
  damping : JSVal
  groundAccel : JSVal
  frequency : JSVal
  naturalFreq : JSVal
  period : JSVal

/-- The initial `useState` value of `parameters`. -/
def initialParameters : SimParams :=
  { mass := JSVal.fin 1000
    stiffness := JSVal.fin 50000
    damping := JSVal.fin 0.05
    groundAccel := JSVal.fin 5
    frequency := JSVal.fin 1.5
    naturalFreq := JSVal.fin 0
    period := JSVal.fin 0 }

/-- The derived-parameters effect (lines 36-45):
`naturalFreq = Math.sqrt(stiffness / mass) / (2 * Math.PI)`,
`period = 1 / naturalFreq`. -/
def deriveParams (p : SimParams) : SimParams :=
  let naturalFreq := JSVal.jdiv (JSVal.jsqrt (JSVal.jdiv p.stiffness p.mass))
    (JSVal.jmul (JSVal.fin 2) (JSVal.fin Real.pi))
  { p with naturalFreq := naturalFreq, period := JSVal.jdiv (JSVal.fin 1) naturalFreq }

/-- Component state relevant to the simulation loop: the `isPlaying`, `time`
and `displacement` states, the current `parameters`, and whether an animation
frame callback is currently queued in `animationRef`.  `time` only ever takes
finite values (`0`, then `+ 0.02` per tick), so it is a plain real. -/
structure SimState where
  isPlaying : Bool
  time : ℝ
  displacement : JSVal
  params : SimParams
  queued : Bool

/-- The displacement computed by one run of the `animate` callback body
(lines 51-72), at the already-incremented time `newTime`:
`omega = 2*Math.PI*naturalFreq`, `excitationRatio = frequency/naturalFreq`
(named `er` below), the dynamic amplification factor, and
`structuralDisplacement * 1000`. -/
def tickDisplacement (p : SimParams) (newTime : ℝ) : JSVal :=
  let omega := JSVal.jmul (JSVal.jmul (JSVal.fin 2) (JSVal.fin Real.pi)) p.naturalFreq
  let er := JSVal.jdiv p.frequency p.naturalFreq
  let denominator := JSVal.jsqrt (JSVal.jadd
      (JSVal.jpow2 (JSVal.jsub (JSVal.fin 1) (JSVal.jmul er er)))
      (JSVal.jpow2 (JSVal.jmul (JSVal.jmul (JSVal.fin 2) p.damping) er)))
  let amplificationFactor := JSVal.jdiv (JSVal.fin 1) denominator
  let structuralDisplacement := JSVal.jmul
      (JSVal.jmul amplificationFactor
        (JSVal.jdiv p.groundAccel (JSVal.jmul omega omega)))
      (JSVal.jsin (JSVal.jsub
        (JSVal.jmul
          (JSVal.jmul (JSVal.jmul (JSVal.fin 2) (JSVal.fin Real.pi)) p.frequency)
          (JSVal.fin newTime))
        (JSVal.jatan2 (JSVal.jmul (JSVal.jmul (JSVal.fin 2) p.damping) er)
          (JSVal.jsub (JSVal.fin 1) (JSVal.jmul er er)))))
  JSVal.jmul structuralDisplacement (JSVal.fin 1000)

/-- One firing of the queued `requestAnimationFrame` callback `animate`
(lines 51-78): if a callback is queued it increments `time` by `0.02`,
stores the recomputed displacement, and re-queues itself
(`animationRef.current = requestAnimationFrame(animate)`); if no callback is
queued (it was cancelled), nothing fires and the state is unchanged. -/
def fireTick (s : SimState) : SimState :=
  if s.queued then
    let newTime := s.time + 0.02
    { s with time := newTime, displacement := tickDisplacement s.params newTime }
  else s

/-- `startSimulation` (lines 176-180): sets `isPlaying` to true and `time`
to 0; the animation effect then queues the first `animate` callback. -/
def startSimulation (s : SimState) : SimState :=
  { s with isPlaying := true, time := 0, queued := true }

/-- `stopSimulation` (lines 182-188): sets `isPlaying` to false and cancels
the queued animation frame (`cancelAnimationFrame(animationRef.current)`,
also performed by the animation effect cleanup). -/
def stopSimulation (s : SimState) : SimState :=
  { s with isPlaying := false, queued := false }

/-- `resetSimulation` (lines 190-197): stops, zeroes `time` and
`displacement`, and cancels the queued animation frame. -/
def resetSimulation (s : SimState) : SimState :=
  { s with isPlaying := false, time := 0, displacement := JSVal.fin 0, queued := false }

/-- The five parameter fields editable through `handleParameterChange`. -/
inductive ParamField where
  | mass | stiffness | damping | groundAccel | frequency
  deriving DecidableEq

/-- Field read on the parameters object. -/
def getField (p : ParamField) (ps : SimParams) : JSVal :=
  match p with
  | ParamField.mass => ps.mass
  | ParamField.stiffness => ps.stiffness
  | ParamField.damping => ps.damping
  | ParamField.groundAccel => ps.groundAccel
  | ParamField.frequency => ps.frequency

/-- The spread-update `setParameters(prev => ({...prev, [param]: numValue}))`. -/
def setField (p : ParamField) (v : JSVal) (ps : SimParams) : SimParams :=
  match p with
  | ParamField.mass => { ps with mass := v }
  | ParamField.stiffness => { ps with stiffness := v }
  | ParamField.damping => { ps with damping := v }
  | ParamField.groundAccel => { ps with groundAccel := v }
  | ParamField.frequency => { ps with frequency := v }

/-- `handleParameterChange(param, value)` (lines 166-174), taking the result
of `parseFloat(value)` as a JavaScript number (`nan` models `NaN`).  The
guard `!isNaN(numValue) && numValue > 0` evaluates per IEEE class:
false for NaN, false for non-positive finite values and `-Infinity`,
true for positive finite values and `+Infinity`. -/
def handleParameterChange (p : ParamField) (numValue : JSVal) (ps : SimParams) : SimParams :=
  match numValue with
  | JSVal.nan => ps
  | JSVal.posInf => setField p JSVal.posInf ps
  | JSVal.negInf => ps
  | JSVal.fin x => if 0 < x then setField p (JSVal.fin x) ps else ps

/-- The steady-state displacement formula exactly as the claim states it
(a real number; stated for comparison with what the tick stores):
`1000 * DAF(r, z) * (a / omega^2) * sin(2*pi*f*t - atan2(2*z*r, 1 - r^2))`
with `omega = 2*pi*naturalFrequency` and `r = f / naturalFrequency` for
`naturalFrequency = sqrt(k/m)/(2*pi)`. -/
def specSteadyStateDisplacement (m k z a f t : ℝ) : ℝ :=
  let nf := Real.sqrt (k / m) / (2 * Real.pi)
  let omega := 2 * Real.pi * nf
  let r := f / nf
  1000 * (1 / Real.sqrt ((1 - r^2)^2 + (2*z*r)^2)) * (a / omega^2) *
    Real.sin (2 * Real.pi * f * t - JSVal.atan2R (2*z*r) (1 - r^2))

end

/-! ### Additional reduction helpers -/

namespace JSVal

lemma jmul_posInf_fin {y : ℝ} (h : 0 < y) : jmul posInf (fin y) = posInf := by
  simp [jmul, h]

end JSVal

lemma getField_setField_same (p : ParamField) (v : JSVal) (ps : SimParams) :
    getField p (setField p v ps) = v := by
  cases p <;> rfl

lemma getField_setField_ne (p q : ParamField) (v : JSVal) (ps : SimParams) (h : q ≠ p) :
    getField q (setField p v ps) = getField q ps := by
  cases p <;> cases q <;> first | rfl | exact absurd rfl h

lemma setField_naturalFreq (p : ParamField) (v : JSVal) (ps : SimParams) :
    (setField p v ps).naturalFreq = ps.naturalFreq := by
  cases p <;> rfl

lemma setField_period (p : ParamField) (v : JSVal) (ps : SimParams) :
    (setField p v ps).period = ps.period := by
  cases p <;> rfl

lemma fireTick_not_queued {s : SimState} (h : s.queued = false) : fireTick s = s := by
  simp [fireTick, h]

/-- The initial component state: not playing, zero time and displacement,
initial parameters, no queued animation frame. -/
noncomputable def initialState : SimState :=
  { isPlaying := false
    time := 0
    displacement := JSVal.fin 0
    params := initialParameters
    queued := false }

/-! ### Claim theorems for the formula engine and simulation loop -/

/-- **C1.** `FORMULAS.dynamicAmplification` at `r = 1`, `z = 0` returns the
designated infinite result (`Infinity`, detectably non-finite, no exception is
thrown since the function is total), and for every `r ≥ 0`, `z ≥ 0` with
`(r, z) ≠ (1, 0)` the result is a finite number. -/
theorem dynamicAmplification_resonance_infinite_else_finite :
    FORMULAS.dynamicAmplification 1 0 = JSVal.posInf ∧
    ∀ r z : ℝ, 0 ≤ r → 0 ≤ z → ¬(r = 1 ∧ z = 0) →
      ∃ x : ℝ, FORMULAS.dynamicAmplification r z = JSVal.fin x := by
  constructor
  · unfold FORMULAS.dynamicAmplification
    simp only [JSVal.jpow2, JSVal.jmul_fin, JSVal.jsub_fin, JSVal.jadd_fin]
    norm_num
    rw [JSVal.jsqrt_fin_of_nonneg le_rfl, Real.sqrt_zero,
      JSVal.jdiv_fin_zero_of_pos one_pos]
  · intro r z hr _hz hne
    have hD0 : 0 ≤ (1 - r*r)*(1 - r*r) + (2*z*r)*(2*z*r) :=
      add_nonneg (mul_self_nonneg _) (mul_self_nonneg _)
    have hDne : (1 - r*r)*(1 - r*r) + (2*z*r)*(2*z*r) ≠ 0 := by
      intro h0
      have h1 : 1 - r*r = 0 := by nlinarith [mul_self_nonneg (1 - r*r), mul_self_nonneg (2*z*r)]
      have h2 : 2*z*r = 0 := by nlinarith [mul_self_nonneg (1 - r*r), mul_self_nonneg (2*z*r)]
      have hr1 : r = 1 := by
        have hfac : (r - 1) * (r + 1) = 0 := by nlinarith
        rcases mul_eq_zero.mp hfac with hc | hc
        · linarith [sub_eq_zero.mp hc]
        · exfalso
          have : r = -1 := by linarith
          linarith
      have hz0 : z = 0 := by
        rw [hr1] at h2
        linarith
      exact hne ⟨hr1, hz0⟩
    have hsq : Real.sqrt ((1 - r*r)*(1 - r*r) + (2*z*r)*(2*z*r)) ≠ 0 := by
      rw [Real.sqrt_ne_zero']
      exact lt_of_le_of_ne hD0 (Ne.symm hDne)
    refine ⟨1 / Real.sqrt ((1 - r*r)*(1 - r*r) + (2*z*r)*(2*z*r)), ?_⟩
    unfold FORMULAS.dynamicAmplification
    simp only [JSVal.jpow2, JSVal.jmul_fin, JSVal.jsub_fin, JSVal.jadd_fin]
    rw [JSVal.jsqrt_fin_of_nonneg hD0, JSVal.jdiv_fin_of_ne _ hsq]

/-- Witness for C1 at the concrete non-resonant input `r = 2`, `z = 0`. -/
theorem dynamicAmplification_resonance_witness :
    FORMULAS.dynamicAmplification 1 0 = JSVal.posInf ∧
    ∃ x : ℝ, FORMULAS.dynamicAmplification 2 0 = JSVal.fin x :=
  ⟨dynamicAmplification_resonance_infinite_else_finite.1,
   dynamicAmplification_resonance_infinite_else_finite.2 2 0 (by norm_num) le_rfl
     (by norm_num)⟩

/-- **C8.** For every mass `m > 0` and stiffness `k > 0`,
`naturalFrequency(k, m) = sqrt(k/m)/(2*pi)`, `period(f) = 1/f`, and the
round-trip `naturalFrequency(k, m) * period(naturalFrequency(k, m))` equals 1
(exactly, in the real model). -/
theorem naturalFrequency_period_roundtrip (m k : ℝ) (hm : 0 < m) (hk : 0 < k) :
    FORMULAS.naturalFrequency k m = Real.sqrt (k / m) / (2 * Real.pi) ∧
    FORMULAS.period (FORMULAS.naturalFrequency k m) = 1 / FORMULAS.naturalFrequency k m ∧
    FORMULAS.naturalFrequency k m * FORMULAS.period (FORMULAS.naturalFrequency k m) = 1 := by
  refine ⟨rfl, rfl, ?_⟩
  have hnf : 0 < FORMULAS.naturalFrequency k m := by
    unfold FORMULAS.naturalFrequency
    apply div_pos (Real.sqrt_pos.mpr (div_pos hk hm))
    positivity
  unfold FORMULAS.period
  rw [mul_one_div, div_self hnf.ne']

/-- Witness for C8 at the concrete input `m = 1000`, `k = 50000`. -/
theorem naturalFrequency_period_roundtrip_witness :
    FORMULAS.naturalFrequency 50000 1000 *
      FORMULAS.period (FORMULAS.naturalFrequency 50000 1000) = 1 :=
  (naturalFrequency_period_roundtrip 1000 50000 (by norm_num) (by norm_num)).2.2

/-- **C9.** `project3DToIsometric` with a fixed config is a linear map from
`(x, y, z)` to `(x, y)` (it preserves addition and scalar multiplication),
and under `ISOMETRIC_CONFIG` it is non-invertible: the distinct points
`(0,0,0)` and `(1,1,0)` project to the same 2D point. -/
theorem project3DToIsometric_linear_noninvertible :
    (∀ (cfg : IsoConfig) (x1 y1 z1 x2 y2 z2 : ℝ),
      project3DToIsometric (x1 + x2) (y1 + y2) (z1 + z2) cfg =
        project3DToIsometric x1 y1 z1 cfg + project3DToIsometric x2 y2 z2 cfg) ∧
    (∀ (cfg : IsoConfig) (c x y z : ℝ),
      project3DToIsometric (c * x) (c * y) (c * z) cfg =
        c • project3DToIsometric x y z cfg) ∧
    (∃ p q : ℝ × ℝ × ℝ, p ≠ q ∧
      project3DToIsometric p.1 p.2.1 p.2.2 ISOMETRIC_CONFIG =
        project3DToIsometric q.1 q.2.1 q.2.2 ISOMETRIC_CONFIG) := by
  refine ⟨?_, ?_, ?_⟩
  · intro cfg x1 y1 z1 x2 y2 z2
    unfold project3DToIsometric
    simp only [Prod.mk_add_mk, Prod.mk.injEq]
    constructor <;> ring
  · intro cfg c x y z
    unfold project3DToIsometric
    simp only [Prod.smul_mk, smul_eq_mul, Prod.mk.injEq]
    constructor <;> ring
  · refine ⟨(0, 0, 0), (1, 1, 0), by norm_num [Prod.ext_iff], ?_⟩
    unfold project3DToIsometric ISOMETRIC_CONFIG
    norm_num [Real.cos_neg, Real.sin_neg]

/-- **C10.** `handleParameterChange` with the parsed value `v`: if `v` is NaN
or non-positive the parameters are completely unchanged (the invalid edit is
rejected atomically); otherwise exactly the edited field is set to `v` and
every other field (the other four editable fields and the two derived fields)
is unchanged. -/
theorem handleParameterChange_atomic (p : ParamField) (v : JSVal) (ps : SimParams) :
    ((v = JSVal.nan ∨ v = JSVal.negInf ∨ ∃ x : ℝ, v = JSVal.fin x ∧ x ≤ 0) →
      handleParameterChange p v ps = ps) ∧
    ((v = JSVal.posInf ∨ ∃ x : ℝ, v = JSVal.fin x ∧ 0 < x) →
      getField p (handleParameterChange p v ps) = v ∧
      (∀ q : ParamField, q ≠ p →
        getField q (handleParameterChange p v ps) = getField q ps) ∧
      (handleParameterChange p v ps).naturalFreq = ps.naturalFreq ∧
      (handleParameterChange p v ps).period = ps.period) := by
  constructor
  · rintro (rfl | rfl | ⟨x, rfl, hx⟩)
    · rfl
    · rfl
    · simp [handleParameterChange, not_lt.mpr hx]
  · rintro (rfl | ⟨x, rfl, hx⟩)
    · exact ⟨getField_setField_same p _ ps,
        fun q hq => getField_setField_ne p q _ ps hq,
        setField_naturalFreq p _ ps, setField_period p _ ps⟩
    · simp only [handleParameterChange, if_pos hx]
      exact ⟨getField_setField_same p _ ps,
        fun q hq => getField_setField_ne p q _ ps hq,
        setField_naturalFreq p _ ps, setField_period p _ ps⟩

/-- Witness for C10: a NaN edit leaves the parameters unchanged, and the
valid edit `mass := 2` lands exactly on the mass field. -/
theorem handleParameterChange_atomic_witness :
    handleParameterChange ParamField.mass JSVal.nan initialParameters = initialParameters ∧
    getField ParamField.mass
      (handleParameterChange ParamField.mass (JSVal.fin 2) initialParameters) = JSVal.fin 2 ∧
    getField ParamField.damping
      (handleParameterChange ParamField.mass (JSVal.fin 2) initialParameters) =
      getField ParamField.damping initialParameters :=
  ⟨(handleParameterChange_atomic ParamField.mass JSVal.nan initialParameters).1 (Or.inl rfl),
   ((handleParameterChange_atomic ParamField.mass (JSVal.fin 2) initialParameters).2
     (Or.inr ⟨2, rfl, by norm_num⟩)).1,
   ((handleParameterChange_atomic ParamField.mass (JSVal.fin 2) initialParameters).2
     (Or.inr ⟨2, rfl, by norm_num⟩)).2.1 ParamField.damping (by decide)⟩

/-- **C3.** After `stop()` transitions the simulation from Running to Stopped,
no tick callback that fires afterwards mutates the simulation state (the
queued callback was cancelled, and a firing with nothing queued is a no-op):
any number of subsequent tick firings leaves the state, in particular
`time` and `displacement`, exactly at the values frozen by `stop()`. -/
theorem stop_freezes_state (s : SimState) (_hrun : s.isPlaying = true) (n : ℕ) :
    fireTick^[n] (stopSimulation s) = stopSimulation s ∧
    (stopSimulation s).time = s.time ∧
    (stopSimulation s).displacement = s.displacement := by
  refine ⟨?_, rfl, rfl⟩
  exact Function.iterate_fixed (fireTick_not_queued rfl) n

/-- Witness for C3: stopping a freshly started simulation and firing three
ticks afterwards changes nothing. -/
theorem stop_freezes_state_witness :
    fireTick^[3] (stopSimulation (startSimulation initialState)) =
      stopSimulation (startSimulation initialState) ∧
    (stopSimulation (startSimulation initialState)).time =
      (startSimulation initialState).time ∧
    (stopSimulation (startSimulation initialState)).displacement =
      (startSimulation initialState).displacement :=
  stop_freezes_state (startSimulation initialState) rfl 3

/-! ### NaN propagation through the tick (claim C2) -/

/-- A running state whose parameters went through the derived-properties
effect with an invalid (negative) mass, so that the stored natural frequency
is NaN, and whose last stored displacement is the finite value 0. -/
noncomputable def nanFreqState : SimState :=
  { isPlaying := true
    time := 0
    displacement := JSVal.fin 0
    params := deriveParams { initialParameters with mass := JSVal.fin (-1000) }
    queued := true }

lemma nanFreqState_naturalFreq : nanFreqState.params.naturalFreq = JSVal.nan := by
  have h1 : JSVal.jdiv (JSVal.fin 50000) (JSVal.fin (-1000)) =
      JSVal.fin (50000 / (-1000)) := JSVal.jdiv_fin_of_ne _ (by norm_num)
  have h2 : (50000 : ℝ) / (-1000) = -50 := by norm_num
  have h3 : JSVal.jsqrt (JSVal.fin (-50)) = JSVal.nan :=
    JSVal.jsqrt_fin_of_neg (by norm_num)
  simp [nanFreqState, deriveParams, initialParameters, h1, h2, h3]

/-- **C2 (counterexample).** The claim says a tick with non-finite
naturalFrequency leaves `instantaneousDisplacement` at its last finite value
and never stores NaN.  At the concrete running state `nanFreqState`
(derived naturalFrequency NaN from an invalid mass, last displacement 0),
the tick stores NaN: the displacement changes and is not finite. -/
theorem tick_nan_naturalFreq_counterexample :
    nanFreqState.isPlaying = true ∧
    nanFreqState.params.naturalFreq = JSVal.nan ∧
    nanFreqState.displacement = JSVal.fin 0 ∧
    (fireTick nanFreqState).displacement = JSVal.nan ∧
    (fireTick nanFreqState).displacement ≠ nanFreqState.displacement := by
  have hd : (fireTick nanFreqState).displacement = JSVal.nan := by
    have hq : nanFreqState.queued = true := rfl
    simp only [fireTick, hq, if_true]
    simp [tickDisplacement, nanFreqState_naturalFreq]
  refine ⟨rfl, nanFreqState_naturalFreq, rfl, hd, ?_⟩
  rw [hd]
  intro hc
  exact JSVal.noConfusion hc

/-- **C2 (amended).** What the code actually does: the tick applies the
displacement formula unconditionally, so for every running state with a
queued callback whose stored naturalFrequency is NaN, the tick still advances
`elapsedTime` by 0.02 and stores NaN as the displacement (NaN is propagated
onward), instead of holding the last finite value. -/
theorem tick_nan_naturalFreq_stores_nan (s : SimState) (hq : s.queued = true)
    (hnf : s.params.naturalFreq = JSVal.nan) :
    (fireTick s).time = s.time + 0.02 ∧ (fireTick s).displacement = JSVal.nan := by
  constructor
  · simp [fireTick, hq]
  · simp only [fireTick, hq, if_true]
    simp [tickDisplacement, hnf]

/-- Witness for the amended C2 at the concrete state `nanFreqState`. -/
theorem tick_nan_naturalFreq_stores_nan_witness :
    (fireTick nanFreqState).time = nanFreqState.time + 0.02 ∧
    (fireTick nanFreqState).displacement = JSVal.nan :=
  tick_nan_naturalFreq_stores_nan nanFreqState rfl nanFreqState_naturalFreq

/-! ### The tick as the steady-state formula (claim C4) -/

lemma tickDisplacement_fin {p : SimParams} (t z a f nf : ℝ)
    (hz : p.damping = JSVal.fin z) (ha : p.groundAccel = JSVal.fin a)
    (hf : p.frequency = JSVal.fin f) (hnf : p.naturalFreq = JSVal.fin nf)
    (hnf0 : nf ≠ 0)
    (hden : Real.sqrt ((1 - (f/nf)^2)^2 + (2*z*(f/nf))^2) ≠ 0) :
    tickDisplacement p t = JSVal.fin
      (1 / Real.sqrt ((1 - (f/nf)^2)^2 + (2*z*(f/nf))^2) *
        (a / (2*Real.pi*nf)^2) *
        Real.sin (2*Real.pi*f*t - JSVal.atan2R (2*z*(f/nf)) (1 - (f/nf)^2)) * 1000) := by
  have hw : (2:ℝ) * Real.pi * nf ≠ 0 :=
    mul_ne_zero (mul_ne_zero two_ne_zero Real.pi_ne_zero) hnf0
  simp only [tickDisplacement, hz, ha, hf, hnf, JSVal.jpow2,
    JSVal.jdiv_fin_of_ne _ hnf0, JSVal.jmul_fin, JSVal.jsub_fin, JSVal.jadd_fin,
    JSVal.jsin_fin, JSVal.jatan2_fin]
  rw [show (1 - f / nf * (f / nf)) * (1 - f / nf * (f / nf)) +
        2 * z * (f / nf) * (2 * z * (f / nf)) =
      (1 - (f/nf)^2)^2 + (2*z*(f/nf))^2 from by ring]
  rw [JSVal.jsqrt_fin_of_nonneg (by positivity), JSVal.jdiv_fin_of_ne _ hden]
  rw [show (2:ℝ) * Real.pi * nf * (2 * Real.pi * nf) = (2*Real.pi*nf)^2 from by ring]
  rw [JSVal.jdiv_fin_of_ne _ (pow_ne_zero 2 hw)]
  rw [show (1:ℝ) - f / nf * (f / nf) = 1 - (f/nf)^2 from by ring]
  simp only [JSVal.jmul_fin]

/-- **C4 (amended).** For every running state with a queued tick whose current
parameters have mass `m > 0`, stiffness `k > 0`, damping `z`, ground
acceleration `a` and excitation frequency `f`, whose stored naturalFrequency
is the derived `sqrt(k/m)/(2*pi)`, and whose amplification denominator
`sqrt((1-r^2)^2 + (2 z r)^2)` is nonzero (that is, not exact undamped
resonance), the tick increases `elapsedTime` by exactly 0.02 and sets
`instantaneousDisplacement` (mm) to
`1000 * DAF(r,z) * (a/omega^2) * sin(2 pi f t - atan2(2 z r, 1 - r^2))`. -/
theorem tick_computes_steady_state (s : SimState) (m k z a f : ℝ)
    (hq : s.queued = true)
    (_hm : s.params.mass = JSVal.fin m) (_hk : s.params.stiffness = JSVal.fin k)
    (hz : s.params.damping = JSVal.fin z) (ha : s.params.groundAccel = JSVal.fin a)
    (hf : s.params.frequency = JSVal.fin f)
    (hnf : s.params.naturalFreq = JSVal.fin (Real.sqrt (k / m) / (2 * Real.pi)))
    (hm0 : 0 < m) (hk0 : 0 < k)
    (hres : Real.sqrt
        ((1 - (f / (Real.sqrt (k / m) / (2 * Real.pi)))^2)^2 +
          (2 * z * (f / (Real.sqrt (k / m) / (2 * Real.pi))))^2) ≠ 0) :
    (fireTick s).time = s.time + 0.02 ∧
    (fireTick s).displacement =
      JSVal.fin (specSteadyStateDisplacement m k z a f (s.time + 0.02)) := by
  have hnf0 : Real.sqrt (k / m) / (2 * Real.pi) ≠ 0 :=
    ne_of_gt (div_pos (Real.sqrt_pos.mpr (div_pos hk0 hm0)) (by positivity))
  constructor
  · simp [fireTick, hq]
  · have hstep : (fireTick s).displacement = tickDisplacement s.params (s.time + 0.02) := by
      simp [fireTick, hq]
    rw [hstep, tickDisplacement_fin (s.time + 0.02) z a f _ hz ha hf hnf hnf0 hres]
    exact congrArg JSVal.fin (by simp only [specSteadyStateDisplacement]; ring)

/-- A running state with the parameters of the C4 witness: `m = 1`, `k = 1`,
`z = 0.05`, `a = 5`, `f = 0`, with the stored naturalFrequency equal to the
derived `sqrt(1/1)/(2*pi)`. -/
noncomputable def steadyWitnessState : SimState :=
  { isPlaying := true
    time := 0
    displacement := JSVal.fin 0
    params :=
      { mass := JSVal.fin 1
        stiffness := JSVal.fin 1
        damping := JSVal.fin 0.05
        groundAccel := JSVal.fin 5
        frequency := JSVal.fin 0
        naturalFreq := JSVal.fin (Real.sqrt (1 / 1) / (2 * Real.pi))
        period := JSVal.fin 0 }
    queued := true }

/-- Witness for the amended C4 at the concrete state `steadyWitnessState`. -/
theorem tick_computes_steady_state_witness :
    (fireTick steadyWitnessState).time = steadyWitnessState.time + 0.02 ∧
    (fireTick steadyWitnessState).displacement =
      JSVal.fin (specSteadyStateDisplacement 1 1 0.05 5 0 (steadyWitnessState.time + 0.02)) :=
  tick_computes_steady_state steadyWitnessState 1 1 0.05 5 0 rfl rfl rfl rfl rfl rfl rfl
    (by norm_num) (by norm_num) (by norm_num [Real.sqrt_one])

/-- A running state at exact undamped resonance: `m = 1`, `k = 4*pi^2`
(so the derived natural frequency is exactly 1 Hz), `z = 0`, `f = 1`. -/
noncomputable def resonanceState : SimState :=
  { isPlaying := true
    time := 0
    displacement := JSVal.fin 0
    params :=
      { mass := JSVal.fin 1
        stiffness := JSVal.fin (4 * Real.pi^2)
        damping := JSVal.fin 0
        groundAccel := JSVal.fin 5
        frequency := JSVal.fin 1
        naturalFreq := JSVal.fin 1
        period := JSVal.fin 1 }
    queued := true }

lemma resonanceState_naturalFreq_derived :
    (deriveParams resonanceState.params).naturalFreq = resonanceState.params.naturalFreq := by
  show JSVal.jdiv (JSVal.jsqrt (JSVal.jdiv (JSVal.fin (4 * Real.pi^2)) (JSVal.fin 1)))
      (JSVal.jmul (JSVal.fin 2) (JSVal.fin Real.pi)) = JSVal.fin 1
  rw [JSVal.jdiv_fin_of_ne _ one_ne_zero,
    show (4 * Real.pi^2 : ℝ) / 1 = (2 * Real.pi)^2 from by rw [div_one]; ring,
    JSVal.jsqrt_fin_of_nonneg (by positivity), Real.sqrt_sq (by positivity),
    JSVal.jmul_fin, JSVal.jdiv_fin_of_ne _ (by positivity : ((2:ℝ) * Real.pi) ≠ 0),
    div_self (by positivity : ((2:ℝ) * Real.pi) ≠ 0)]

/-- **C4 (counterexample).** The claim quantifies over every damping `z` and
excitation frequency `f`, but at exact undamped resonance (`z = 0`,
`f = naturalFrequency`) the tick stores `Infinity`, not the real number the
claimed closed-form formula denotes: at `resonanceState` (whose parameters
satisfy the claim, with mass `1 > 0`, stiffness `4*pi^2 > 0` and the stored
naturalFrequency equal to the derived one), the stored displacement is
`Infinity` and differs from `fin x` for every real `x`. -/
theorem tick_resonance_counterexample :
    resonanceState.queued = true ∧
    resonanceState.params.mass = JSVal.fin 1 ∧ (0:ℝ) < 1 ∧
    resonanceState.params.stiffness = JSVal.fin (4 * Real.pi^2) ∧ 0 < 4 * Real.pi^2 ∧
    resonanceState.params.damping = JSVal.fin 0 ∧
    resonanceState.params.frequency = JSVal.fin 1 ∧
    (deriveParams resonanceState.params).naturalFreq = resonanceState.params.naturalFreq ∧
    (fireTick resonanceState).displacement = JSVal.posInf ∧
    ∀ x : ℝ, (fireTick resonanceState).displacement ≠ JSVal.fin x := by
  have hd : (fireTick resonanceState).displacement = JSVal.posInf := by
    have hq : resonanceState.queued = true := rfl
    have e1 : JSVal.jdiv (JSVal.fin 1) (JSVal.fin 1) = JSVal.fin 1 := by
      rw [JSVal.jdiv_fin_of_ne _ one_ne_zero]
      norm_num
    simp only [fireTick, hq, if_true]
    simp only [tickDisplacement, resonanceState, JSVal.jpow2, e1,
      JSVal.jmul_fin, JSVal.jsub_fin, JSVal.jadd_fin, JSVal.jsin_fin, JSVal.jatan2_fin]
    norm_num [JSVal.atan2R_zero_zero]
    rw [JSVal.jsqrt_fin_of_nonneg le_rfl, Real.sqrt_zero, JSVal.jdiv_fin_zero_of_pos one_pos]
    rw [JSVal.jdiv_fin_of_ne _ (by positivity : ((2:ℝ) * Real.pi * (2 * Real.pi)) ≠ 0)]
    have hsin : 0 < Real.sin (2 * Real.pi * (1 / 50)) := by
      apply Real.sin_pos_of_pos_of_lt_pi (by positivity)
      nlinarith [Real.pi_pos]
    rw [JSVal.jmul_posInf_fin (by positivity : (0:ℝ) < 5 / (2 * Real.pi * (2 * Real.pi)))]
    rw [JSVal.jmul_posInf_fin hsin]
    rw [JSVal.jmul_posInf_fin (by norm_num : (0:ℝ) < 1000)]
  refine ⟨rfl, rfl, by norm_num, rfl, by positivity, rfl, rfl,
    resonanceState_naturalFreq_derived, hd, ?_⟩
  intro x
  rw [hd]
  intro hc
  exact JSVal.noConfusion hc
